import Mathlib

/-!
Verification development for the `elevator` tool: a shallow embedding of
the level-limit table and selection algorithm (src/level.rs), the
compression-ratio model and statistics accumulation (src/main.rs), and the
in-place level/tier bit patcher (src/main.rs), together with theorems about
the behaviour of each.

Machine integers are modelled as `Nat` with explicit `% 2^w` where the code
can wrap; `f64` values are modelled as exact rationals `ℚ`; Rust panics are
modelled as `Option`/`Except` failures.
-/

namespace Elevator

/-- Tier enumeration from src/level.rs (`Main` is the default). -/
inductive Tier where
  | Main
  | High
deriving DecidableEq

/-- Maximum parameters relevant to level restrictions (src/level.rs,
`LevelLimits`).  `main_mbps`/`high_mbps` are `f64` in the source, modelled
as `ℚ`. -/
structure LevelLimits where
  max_pic_size : Nat
  max_h_size : Nat
  max_v_size : Nat
  max_display_rate : Nat
  max_decode_rate : Nat
  max_header_rate : Nat
  main_mbps : ℚ
  high_mbps : ℚ
  main_cr : Nat
  high_cr : Nat
  max_tiles : Nat
  max_tile_cols : Nat
deriving DecidableEq

/-- `Level(pub u8, Option<LevelLimits>)` from src/level.rs. -/
structure Level where
  idx : Nat
  limits : Option LevelLimits
deriving DecidableEq

/-- `Level::is_valid` from src/level.rs. -/
def Level.is_valid (l : Level) : Bool :=
  l.limits.isSome

/-- The exact value of `std::f64::MAX` as a rational: `(2 - 2^-52) * 2^1023`. -/
def f64MAX : ℚ := 2 ^ 1024 - 2 ^ 971

/-- The limits record of the sentinel level 31 (src/level.rs lines 351-367):
every field is the representable maximum of its type. -/
def maxLevelLimits : LevelLimits :=
  ⟨4294967295, 65535, 65535, 18446744073709551615, 18446744073709551615, 65535,
    f64MAX, f64MAX, 255, 255, 255, 255⟩

/-- The level table `LEVELS` from src/level.rs lines 95-368, transcribed
entry by entry (`f64` megabit bounds as exact rationals). -/
def LEVELS : List Level := [
  ⟨0, some ⟨147456, 2048, 1152, 4423680, 5529600, 150, 3/2, 0, 2, 0, 8, 4⟩⟩,
  ⟨1, some ⟨278784, 2816, 1584, 8363520, 10454400, 150, 3, 0, 2, 0, 8, 4⟩⟩,
  ⟨2, none⟩,
  ⟨3, none⟩,
  ⟨4, some ⟨665856, 4352, 2448, 19975680, 24969600, 150, 6, 0, 2, 0, 16, 6⟩⟩,
  ⟨5, some ⟨1065024, 5504, 3096, 31950720, 39938400, 150, 10, 0, 2, 0, 8, 4⟩⟩,
  ⟨6, none⟩,
  ⟨7, none⟩,
  ⟨8, some ⟨2359296, 6144, 3456, 70778880, 77856768, 300, 12, 30, 4, 4, 32, 8⟩⟩,
  ⟨9, some ⟨2359296, 6144, 3456, 141557760, 155713536, 300, 20, 50, 4, 4, 32, 8⟩⟩,
  ⟨10, none⟩,
  ⟨11, none⟩,
  ⟨12, some ⟨8912896, 8192, 4352, 267386880, 273715200, 300, 30, 100, 6, 4, 64, 8⟩⟩,
  ⟨13, some ⟨8912896, 8192, 4352, 534773760, 547430400, 300, 40, 160, 8, 4, 64, 8⟩⟩,
  ⟨14, some ⟨8912896, 8192, 4352, 1069547520, 1094860800, 300, 60, 240, 8, 4, 64, 8⟩⟩,
  ⟨15, some ⟨8912896, 8192, 4352, 1069547520, 1176502272, 300, 60, 240, 8, 4, 64, 8⟩⟩,
  ⟨16, some ⟨35651584, 16384, 8704, 1069547520, 1176502272, 300, 60, 240, 8, 4, 128, 16⟩⟩,
  ⟨17, some ⟨35651584, 16384, 8704, 2139095040, 2189721600, 300, 100, 480, 8, 4, 128, 16⟩⟩,
  ⟨18, some ⟨35651584, 16384, 8704, 4278190080, 4379443200, 300, 160, 800, 8, 4, 128, 16⟩⟩,
  ⟨19, some ⟨35651584, 16384, 8704, 4278190080, 4706009088, 300, 160, 800, 8, 4, 128, 16⟩⟩,
  ⟨20, none⟩,
  ⟨21, none⟩,
  ⟨22, none⟩,
  ⟨23, none⟩,
  ⟨24, none⟩,
  ⟨25, none⟩,
  ⟨26, none⟩,
  ⟨27, none⟩,
  ⟨28, none⟩,
  ⟨29, none⟩,
  ⟨30, none⟩,
  ⟨31, some maxLevelLimits⟩ ]

/-- Default used with `List.getD` when indexing `LEVELS`; every statement
that uses it carries an in-range bound, so it is never reached. -/
def noLevel : Level := ⟨0, none⟩

/-- The `Display` implementation for `Level` (src/level.rs lines 69-84):
index 31 renders "Maximum parameters", indices 24..30 render "Reserved",
and every other index renders "major.minor (index)". -/
def levelDisplay (l : Level) : String :=
  let index := l.idx
  if index = 31 then "Maximum parameters"
  else if 24 ≤ index then "Reserved"
  else
    let x := 2 + (index >>> 2)
    let y := index &&& 3
    toString x ++ "." ++ toString y ++ " (" ++ toString index ++ ")"

/-- `SequenceContext` from src/level.rs: the quantities level limits are
checked against.  Field widths (`u16`, `u64`, ...) become hypotheses on the
theorems that need them. -/
structure SequenceContext where
  tier : Tier
  pic_size : Nat × Nat
  display_rate : Nat
  decode_rate : Nat
  header_rate : Nat
  mbps : ℚ
  tiles : Nat
  tile_cols : Nat

/-- The per-level validity test performed inside the `calculate_level` scan
(src/level.rs lines 391-412): a reserved level never matches; a valid level
matches when all its limits dominate the context, using the main-tier
megabit bound when the tier is Main or the level index is at most 7. -/
def levelSatisfies (c : SequenceContext) (level : Level) : Bool :=
  match level.limits with
  | some limits =>
    let mbps_valid :=
      if c.tier = Tier.Main ∨ level.idx ≤ 7 then decide (limits.main_mbps ≥ c.mbps)
      else decide (limits.high_mbps ≥ c.mbps)
    decide (limits.max_pic_size ≥ c.pic_size.1 * c.pic_size.2) &&
    decide (limits.max_h_size ≥ c.pic_size.1) &&
    decide (limits.max_v_size ≥ c.pic_size.2) &&
    decide (limits.max_display_rate ≥ c.display_rate) &&
    decide (limits.max_decode_rate ≥ c.decode_rate) &&
    decide (limits.max_header_rate ≥ c.header_rate) &&
    mbps_valid &&
    decide (limits.max_tiles ≥ c.tiles) &&
    decide (limits.max_tile_cols ≥ c.tile_cols)
  | none => false

/-- `calculate_level` from src/level.rs lines 390-416: scan `LEVELS` in
ascending index order and return the first valid level whose limits all
dominate the context.  The source's `unreachable!("no suitable level
found")` branch is modelled as `none`. -/
def calculate_level (c : SequenceContext) : Option Level :=
  LEVELS.find? (levelSatisfies c)

/-- `calculate_min_pic_compress_ratio` from src/level.rs lines 370-388:
entry i is the scaled, 0.8-floored tier-appropriate minimum compression
ratio for valid level i, and stays at the initial 0.0 for reserved i. -/
def calculate_min_pic_compress_ratio (tier : Tier) (display_rate : ℚ) : List ℚ :=
  LEVELS.map (fun level =>
    match level.limits with
    | some limits =>
      let speed_adjustment := display_rate / (limits.max_display_rate : ℚ)
      let min_comp_basis : Nat :=
        if tier = Tier.Main ∨ level.idx ≤ 7 then limits.main_cr else limits.high_cr
      max (4/5) ((min_comp_basis : ℚ) * speed_adjustment)
    | none => 0)

/-- The `min_cr_level_idx` search loop from src/main.rs lines 480-485 (and
identically lines 323-330): walk the compression-ratio table by ascending
index; at the first index whose threshold is at most the observed minimum
compression ratio, raise the current level-index floor to that index and
stop. -/
def minCrSearchAux (minRatio : ℚ) (cur : Nat) : Nat → List ℚ → Nat
  | _, [] => cur
  | idx, r :: rs =>
    if minRatio ≥ r then max cur idx else minCrSearchAux minRatio cur (idx + 1) rs

/-- The level determination step of `process_input` (src/main.rs lines
515-540): a forced level is returned unconditionally; otherwise the table
selection runs on the computed context and its index is raised to
`min_cr_level_idx`.  The out-of-range table access that Rust would panic on
is modelled as `none`. -/
def resolveLevel (forced : Option Level) (c : SequenceContext) (minCrLevelIdx : Nat) :
    Option Level :=
  match forced with
  | some l => some l
  | none =>
    match calculate_level c with
    | some l =>
      if h : max l.idx minCrLevelIdx < LEVELS.length then
        some (LEVELS.get ⟨max l.idx minCrLevelIdx, h⟩)
      else none
    | none => none

/-- The end-of-stream `delta_time` computation of src/main.rs line 440: the
elapsed time of the final temporal unit, clamped from below by the inverse
time scale multiplied by the final timestamp. -/
def finalDeltaTime (curTuTime lastTuTime : Nat) (timeScale : ℚ) : ℚ :=
  max (((curTuTime - lastTuTime : Nat) : ℚ) / timeScale)
    (1 / timeScale * (curTuTime : ℚ))

/-- The mutable accumulation state threaded through `process_input`
(src/main.rs lines 187-232): running maxima, per-temporal-unit counters and
the one-second sliding-window buffers.  `f64` quantities are rationals;
the `VecDeque` buffers are lists whose head is the deque front. -/
structure AccState where
  maxDisplayRate : ℚ
  maxDecodeRate : ℚ
  maxHeaderRate : ℚ
  maxMbps : ℚ
  minCrLevelIdx : Nat
  showCount : Nat
  frameCount : Nat
  headerCount : Nat
  curTuTime : Nat
  tuSize : Nat
  headerCounts : List Nat
  tuSizes : List Nat
  tuTimes : List Nat
  minCompressedRatio : ℚ
  seenFrameHeader : Bool
  totalShowCount : Nat
deriving DecidableEq

/-- The window-trimming loop of src/main.rs lines 294-300: pop the front of
all three one-second buffers while the summed durations stay strictly above
the rounded time scale.  (With the empty buffers the sum is 0, so for the
nonnegative targets arising in the program the loop stops.) -/
def trimWindows (target : ℚ) :
    List Nat → List Nat → List Nat → List Nat × List Nat × List Nat
  | hc, tsz, t :: tt =>
    if (((t :: tt).sum : Nat) : ℚ) > target then trimWindows target hc.tail tsz.tail tt
    else (hc, tsz, t :: tt)
  | hc, tsz, [] => (hc, tsz, [])

/-- The `OBU_TEMPORAL_DELIMITER` event handler of src/main.rs lines 271-341:
an event whose timestamp equals the tracked unit-start timestamp is skipped
via `continue`; otherwise the unit is closed out: rate maxima are updated,
the just-closed unit is pushed onto the one-second windows, the windows are
trimmed and (when full) normalised into header-rate and megabit maxima, the
compression-ratio level floor is raised when a sequence header (hence a
tier) is known, and the per-unit counters are reset.  `timeScale.round()`
is `round` on ℚ (identical for the nonnegative values that occur). -/
def tdStep (timeScale : ℚ) (seqTier : Option Tier) (pts : Nat) (st : AccState) : AccState :=
  if pts = st.curTuTime then st
  else
    let delta_time := ((pts - st.curTuTime : Nat) : ℚ) / timeScale
    let display_rate := (st.showCount : ℚ) / delta_time
    let maxDisplayRate := max st.maxDisplayRate display_rate
    let maxDecodeRate := max st.maxDecodeRate ((st.frameCount : ℚ) / delta_time)
    let headerCounts := st.headerCounts ++ [st.headerCount]
    let tuSizes := st.tuSizes ++ [st.tuSize]
    let tuTimes := st.tuTimes ++ [pts - st.curTuTime]
    let target : ℚ := ((round timeScale : ℤ) : ℚ)
    let (headerCounts, tuSizes, tuTimes, maxHeaderRate, maxMbps) :=
      if ((tuTimes.sum : Nat) : ℚ) ≥ target then
        let (hc, tsz, tt) := trimWindows target headerCounts tuSizes tuTimes
        let factor := timeScale / ((tt.sum : Nat) : ℚ)
        let header_rate := ((hc.sum : Nat) : ℚ) * factor
        let mbps := ((tsz.sum : Nat) : ℚ) * factor * 8 / 1000000
        (hc, tsz, tt, max st.maxHeaderRate header_rate, max st.maxMbps mbps)
      else (headerCounts, tuSizes, tuTimes, st.maxHeaderRate, st.maxMbps)
    let minCrLevelIdx :=
      match seqTier with
      | some tier =>
        minCrSearchAux st.minCompressedRatio st.minCrLevelIdx 0
          (calculate_min_pic_compress_ratio tier display_rate)
      | none => st.minCrLevelIdx
    { st with
      maxDisplayRate := maxDisplayRate
      maxDecodeRate := maxDecodeRate
      maxHeaderRate := maxHeaderRate
      maxMbps := maxMbps
      minCrLevelIdx := minCrLevelIdx
      headerCounts := headerCounts
      tuSizes := tuSizes
      tuTimes := tuTimes
      totalShowCount := st.totalShowCount + st.showCount
      showCount := 0
      frameCount := 0
      headerCount := 0
      tuSize := 0
      minCompressedRatio := f64MAX
      seenFrameHeader := false }

/-- The two distinct fatal conditions of the patching pass in
`process_input`: the consistency assertion of src/main.rs lines 619-623 and
the High-tier removal panic of src/main.rs line 644. -/
inductive PatchError where
  | levelMismatch
  | highTierRemoval
deriving DecidableEq

/-- `u16::to_be_bytes`: the big-endian byte pair of a 16-bit value. -/
def toBeBytes16 (v : Nat) : Nat × Nat :=
  (v >>> 8, v % 256)

/-- The tier-removal realignment loop of src/main.rs lines 688-697 on the
byte list `file` (indexed from the start of the sequence header OBU
payload): each written byte at position p, for p from the start position to
`seqSz - 1`, is byte p shifted left one bit with the top bit of byte p+1
shifted in (the reader runs one byte ahead of the writer). -/
def shiftLeftTailAux (file : List Nat) : Nat → Nat → List Nat
  | _, 0 => []
  | p, fuel + 1 =>
    ((file.getD p 0 <<< 1) % 256 ||| file.getD (p + 1) 0 >>> 7) ::
      shiftLeftTailAux file (p + 1) fuel

/-- The bytes written by the tier-removal loop from position `p` up to the
end of the sequence header record of size `seqSz`. -/
def shiftLeftTail (file : List Nat) (p seqSz : Nat) : List Nat :=
  shiftLeftTailAux file p (seqSz - p)

/-- The tier-insertion realignment loop of src/main.rs lines 698-704: each
byte is shifted right one bit, the bit shifted out of the previous byte
carried in at the top. -/
def shiftRightTailAux (file : List Nat) : Nat → Nat → Nat → List Nat
  | _, _, 0 => []
  | carry, p, fuel + 1 =>
    (file.getD p 0 >>> 1 ||| carry) ::
      shiftRightTailAux file ((file.getD p 0 <<< 7) % 256) (p + 1) fuel

/-- The bytes written by the tier-insertion loop from position `p` with
initial carry `carry` up to the end of the record of size `seqSz`. -/
def shiftRightTail (file : List Nat) (carry p seqSz : Nat) : List Nat :=
  shiftRightTailAux file carry p (seqSz - p)

/-- Sequential writes: replace the bytes of `file` from position `start` on
with `ws`, leaving all other bytes untouched (writes past the end of the
list are dropped; the theorems below keep them in range). -/
def overwriteBytes : List Nat → Nat → List Nat → List Nat
  | [], _, _ => []
  | _ :: rest, 0, w :: ws => w :: overwriteBytes rest 0 ws
  | b :: rest, 0, [] => b :: rest
  | b :: rest, s + 1, ws => b :: overwriteBytes rest s ws

/-- `lv_bit_offset_in_seq` from src/main.rs lines 560-570: bit offset of
the level field within the sequence header payload — 5 when the stream uses
a reduced still-picture header, otherwise 24; the extended-timing layout
hits `unimplemented!()` in the source, modelled as `none`. -/
def lvBitOffsetInSeq (reduced_still_picture_header timing_info_present_flag : Bool) :
    Option Nat :=
  if reduced_still_picture_header then some 5
  else if timing_info_present_flag then none
  else some 24

/-- The level/tier patching pass of src/main.rs lines 579-716, as a pure
function on the byte list `file` of the output file from the start of the
sequence header OBU payload (so the byte containing the first level bit is
at index `lvBitOffsetInSeqVal / 8`).  All byte values are `u8` modelled as
`Nat`; `255 - m` is the `u8` complement `!m` of a mask byte `m ≤ 255`;
`% 256` makes the `u8` left-shift wrap explicit.  The two panics become
`PatchError`s; the bytes the writer emits overwrite the corresponding
positions of `file`. -/
def patchFile (lvBitOffsetInSeqVal oldLevel newLevel seqSz : Nat) (file : List Nat) :
    Except PatchError (List Nat) :=
  let j := lvBitOffsetInSeqVal / 8
  let off := lvBitOffsetInSeqVal % 8
  let b0 := file.getD j 0
  let b1 := file.getD (j + 1) 0
  let level_aligned := toBeBytes16 ((newLevel <<< 11 >>> off) % 65536)
  let level_bit_mask := toBeBytes16 ((31 <<< 11 >>> off) % 65536)
  let tier_bit_mask := toBeBytes16 (((1 <<< 11 >>> off) % 65536) >>> 1)
  let post_tier_bit_mask := toBeBytes16 ((65535 <<< 3 >>> off >>> 8 >>> 1) % 65536)
  if ((b0 * 256 + b1) >>> 11 <<< off) % 256 = oldLevel then
    let buf0 := b0 &&& (255 - level_bit_mask.1) ||| level_aligned.1
    let buf1 := b1 &&& (255 - level_bit_mask.2) ||| level_aligned.2
    if 7 < oldLevel ∧ newLevel ≤ 7 then
      if 0 < buf0 &&& tier_bit_mask.1 ∨ 0 < buf1 &&& tier_bit_mask.2 then
        .error .highTierRemoval
      else
        let next_input_byte := file.getD (j + 2) 0
        let ta0 := (buf0 <<< 1) % 256 ||| (buf1 >>> 7) &&& post_tier_bit_mask.1
        let ta1 := (buf1 <<< 1) % 256 ||| (next_input_byte >>> 7) &&& post_tier_bit_mask.2
        let out0 := level_aligned.1 ||| ta0 &&& (tier_bit_mask.1 ||| post_tier_bit_mask.1)
        let out1 := level_aligned.2 ||| ta1 &&& (tier_bit_mask.2 ||| post_tier_bit_mask.2)
        .ok (overwriteBytes file j ([out0, out1] ++ shiftLeftTail file (j + 2) seqSz))
    else if oldLevel ≤ 7 ∧ 7 < newLevel then
      let ta0 := (buf0 >>> 1) &&& (255 - tier_bit_mask.1)
      let ta1 := (buf1 >>> 1) &&& (255 - tier_bit_mask.2) ||| (buf0 <<< 7) % 256
      let carry_bit := (buf1 <<< 7) % 256
      let out0 := level_aligned.1 ||| ta0 &&& (tier_bit_mask.1 ||| post_tier_bit_mask.1)
      let out1 := level_aligned.2 ||| ta1 &&& (tier_bit_mask.2 ||| post_tier_bit_mask.2)
      .ok (overwriteBytes file j ([out0, out1] ++ shiftRightTail file carry_bit (j + 2) seqSz))
    else
      let out0 := level_aligned.1 ||| buf0 &&& (tier_bit_mask.1 ||| post_tier_bit_mask.1)
      let out1 := level_aligned.2 ||| buf1 &&& (tier_bit_mask.2 ||| post_tier_bit_mask.2)
      .ok (overwriteBytes file j [out0, out1])
  else
    .error .levelMismatch

/-- A concrete `SequenceContext` (an all-zero stream measured as Main tier)
used to instantiate hypotheses of the selection theorems. -/
def cW : SequenceContext :=
  ⟨Tier.Main, (0, 0), 0, 0, 0, 0, 0, 0⟩

/-- A concrete accumulator state (current temporal unit starting at
timestamp 7) used to instantiate the duplicate-delimiter theorem. -/
def stW : AccState :=
  ⟨0, 0, 0, 0, 0, 0, 0, 0, 7, 0, [], [], [], f64MAX, false, 0⟩

/- ------------------------------------------------------------------ -/
/- Helper lemmas.                                                      -/
/- ------------------------------------------------------------------ -/

theorem levels_length : LEVELS.length = 32 := rfl

theorem levels_get_idx : ∀ i : Fin LEVELS.length, (LEVELS.get i).idx = i.val := by
  decide

theorem levels_getD_eq_get {i : Nat} (hib : i < LEVELS.length) :
    LEVELS.getD i noLevel = LEVELS.get ⟨i, hib⟩ := by
  rw [List.getD_eq_getElem?_getD, List.getElem?_eq_getElem hib]
  rfl

/-- `List.find?` returns an element satisfying the predicate, located at the
first position where the predicate holds. -/
theorem find_spec_aux {α : Type} (p : α → Bool) :
    ∀ (xs : List α) (x : α), xs.find? p = some x →
      p x = true ∧ ∃ m, ∃ hm : m < xs.length, xs.get ⟨m, hm⟩ = x ∧
        ∀ k, ∀ hk : k < xs.length, p (xs.get ⟨k, hk⟩) = true → m ≤ k := by
  intro xs
  induction xs with
  | nil => intro x h; simp [List.find?] at h
  | cons a t ih =>
    intro x h
    by_cases hpa : p a = true
    · rw [List.find?_cons_of_pos _ hpa] at h
      cases h
      exact ⟨hpa, 0, Nat.succ_pos _, rfl, fun k _ _ => Nat.zero_le k⟩
    · rw [List.find?_cons_of_neg _ hpa] at h
      obtain ⟨hpx, m, hm, hget, hmin⟩ := ih x h
      refine ⟨hpx, m + 1, Nat.succ_lt_succ hm, hget, ?_⟩
      intro k hk hpk
      match k with
      | 0 => exact absurd hpk hpa
      | k + 1 => exact Nat.succ_le_succ (hmin k (Nat.lt_of_succ_lt_succ hk) hpk)

/-- `List.find?` succeeds whenever some position satisfies the predicate. -/
theorem find_exists_aux {α : Type} (p : α → Bool) :
    ∀ (xs : List α) (n : Nat) (hn : n < xs.length), p (xs.get ⟨n, hn⟩) = true →
      ∃ x, xs.find? p = some x := by
  intro xs
  induction xs with
  | nil => intro n hn; exact absurd hn (by simp)
  | cons a t ih =>
    intro n hn hp
    by_cases hpa : p a = true
    · exact ⟨a, List.find?_cons_of_pos _ hpa⟩
    · match n with
      | 0 => exact absurd hp hpa
      | n + 1 =>
        obtain ⟨x, hx⟩ := ih n (Nat.lt_of_succ_lt_succ hn) hp
        exact ⟨x, by rw [List.find?_cons_of_neg _ hpa]; exact hx⟩

/-- Every field of the sentinel dominates a context whose fields fit the
widths of the corresponding `SequenceContext` types. -/
theorem sentinel_satisfies (c : SequenceContext) (hw : c.pic_size.1 ≤ 65535)
    (hh : c.pic_size.2 ≤ 65535) (hdisp : c.display_rate ≤ 18446744073709551615)
    (hdec : c.decode_rate ≤ 18446744073709551615) (hhr : c.header_rate ≤ 65535)
    (hmbps : c.mbps ≤ f64MAX) (ht : c.tiles ≤ 255) (htc : c.tile_cols ≤ 255) :
    levelSatisfies c (LEVELS.get ⟨31, by decide⟩) = true := by
  have hpic : c.pic_size.1 * c.pic_size.2 ≤ 4294967295 := by
    have h1 : c.pic_size.1 * c.pic_size.2 ≤ 65535 * 65535 := Nat.mul_le_mul hw hh
    omega
  show levelSatisfies c ⟨31, some maxLevelLimits⟩ = true
  simp only [levelSatisfies, maxLevelLimits, Bool.and_eq_true, decide_eq_true_eq, ge_iff_le]
  refine ⟨⟨⟨⟨⟨⟨⟨⟨hpic, hw⟩, hh⟩, hdisp⟩, hdec⟩, hhr⟩, ?_⟩, ht⟩, htc⟩
  split
  · exact decide_eq_true hmbps
  · exact decide_eq_true hmbps

/- ------------------------------------------------------------------ -/
/- Claim theorems.                                                     -/
/- ------------------------------------------------------------------ -/

/-- Claim C1: for every `SequenceContext` whose fields fit their machine
types, `calculate_level` succeeds (the sentinel at index 31 guarantees the
"no suitable level found" branch is never reached) and returns a level that
satisfies the limit checks and whose index is minimal among all levels
satisfying them. -/
theorem claim_C1 (c : SequenceContext) (hw : c.pic_size.1 ≤ 65535)
    (hh : c.pic_size.2 ≤ 65535) (hdisp : c.display_rate ≤ 18446744073709551615)
    (hdec : c.decode_rate ≤ 18446744073709551615) (hhr : c.header_rate ≤ 65535)
    (hmbps : c.mbps ≤ f64MAX) (ht : c.tiles ≤ 255) (htc : c.tile_cols ≤ 255) :
    ∃ l, calculate_level c = some l ∧ levelSatisfies c l = true ∧
      ∀ n, ∀ hn : n < LEVELS.length, levelSatisfies c (LEVELS.get ⟨n, hn⟩) = true →
        l.idx ≤ n := by
  have h31 := sentinel_satisfies c hw hh hdisp hdec hhr hmbps ht htc
  obtain ⟨x, hx⟩ := find_exists_aux (levelSatisfies c) LEVELS 31 (by decide) h31
  obtain ⟨hpx, m, hm, hget, hmin⟩ := find_spec_aux (levelSatisfies c) LEVELS x hx
  refine ⟨x, hx, hpx, ?_⟩
  intro n hn hsat
  have hxm : x.idx = m := by rw [← hget]; exact levels_get_idx ⟨m, hm⟩
  rw [hxm]
  exact hmin n hn hsat

/-- Witness for C1 at a concrete all-zero Main-tier context. -/
theorem claim_C1_witness :
    (cW.pic_size.1 ≤ 65535 ∧ cW.pic_size.2 ≤ 65535 ∧
     cW.display_rate ≤ 18446744073709551615 ∧ cW.decode_rate ≤ 18446744073709551615 ∧
     cW.header_rate ≤ 65535 ∧ cW.mbps ≤ f64MAX ∧ cW.tiles ≤ 255 ∧ cW.tile_cols ≤ 255) ∧
    (∃ l, calculate_level cW = some l ∧ levelSatisfies cW l = true ∧
      ∀ n, ∀ hn : n < LEVELS.length, levelSatisfies cW (LEVELS.get ⟨n, hn⟩) = true →
        l.idx ≤ n) :=
  ⟨⟨by decide, by decide, by decide, by decide, by decide,
    by norm_num [cW, f64MAX], by decide, by decide⟩,
   claim_C1 cW (by decide) (by decide) (by decide) (by decide) (by decide)
     (by norm_num [cW, f64MAX]) (by decide) (by decide)⟩

/-- Claim C2: `is_valid` is false exactly at the reserved indices
{2,3,6,7,10,11,20..30}, and the limits record at index 31 holds the
representable maximum of every field type (`u32`, `u16`, `u64`, `f64`,
`u8`). -/
theorem claim_C2 :
    (∀ i : Fin 32, (LEVELS.getD i.val noLevel).is_valid = false ↔
        i.val ∈ [2, 3, 6, 7, 10, 11, 20, 21, 22, 23, 24, 25, 26, 27, 28, 29, 30]) ∧
    (LEVELS.getD 31 noLevel).limits =
      some ⟨2 ^ 32 - 1, 2 ^ 16 - 1, 2 ^ 16 - 1, 2 ^ 64 - 1, 2 ^ 64 - 1, 2 ^ 16 - 1,
        f64MAX, f64MAX, 2 ^ 8 - 1, 2 ^ 8 - 1, 2 ^ 8 - 1, 2 ^ 8 - 1⟩ := by
  constructor
  · decide
  · rfl

/-- Claim C3: a forced level is returned unconditionally; otherwise the
resolved index is the maximum of the table-selected index and the
compression-ratio floor, so the floor can raise but never lower the chosen
level. -/
theorem claim_C3 (c : SequenceContext) (minCr : Nat) (hmc : minCr ≤ 31) :
    (∀ f : Level, resolveLevel (some f) c minCr = some f) ∧
    (∀ l : Level, calculate_level c = some l →
      ∃ r : Level, resolveLevel none c minCr = some r ∧
        r.idx = max l.idx minCr ∧ l.idx ≤ r.idx) := by
  constructor
  · intro f; rfl
  · intro l hl
    obtain ⟨_, m, hm, hget, _⟩ := find_spec_aux (levelSatisfies c) LEVELS l hl
    have hidx : l.idx = m := by rw [← hget]; exact levels_get_idx ⟨m, hm⟩
    have hml : m < 32 := by rw [← levels_length]; exact hm
    have hlt : max l.idx minCr < LEVELS.length := by
      rw [levels_length]
      omega
    refine ⟨LEVELS.get ⟨max l.idx minCr, hlt⟩, ?_, ?_, ?_⟩
    · simp only [resolveLevel, hl]
      rw [dif_pos hlt]
    · exact levels_get_idx ⟨max l.idx minCr, hlt⟩
    · rw [levels_get_idx ⟨max l.idx minCr, hlt⟩]
      exact le_max_left _ _

/-- Witness for C3 at a concrete context and floor. -/
theorem claim_C3_witness :
    (3 : Nat) ≤ 31 ∧
    ((∀ f : Level, resolveLevel (some f) cW 3 = some f) ∧
     (∀ l : Level, calculate_level cW = some l →
       ∃ r : Level, resolveLevel none cW 3 = some r ∧
         r.idx = max l.idx 3 ∧ l.idx ≤ r.idx)) :=
  ⟨by decide, claim_C3 cW 3 (by decide)⟩

/-- Claim C5 (code bug evaluation): for a reduced-still-picture-header
stream the level field does sit at bit offset 5, but forcing level 1 on the
record bytes `0b00011000 0b00000000 ...` (profile 0, still picture,
reduced header, level 0) aborts in the consistency assertion instead of
patching: the assertion decodes `((bytes >> 11) << 5) % 256 = 96`, which
can never equal a 5-bit level. -/
theorem claim_C5 :
    lvBitOffsetInSeq true false = some 5 ∧
    patchFile 5 0 1 12 [24, 0, 0, 0, 0, 0, 0, 0, 0, 0, 0, 0] =
      .error .levelMismatch :=
  ⟨rfl, rfl⟩

/-- Counterexample to claim C6 as stated: index 2 is reserved and below
31, yet its display string is "2.2 (2)", not "Reserved". -/
theorem claim_C6_cex :
    (LEVELS.getD 2 noLevel).is_valid = false ∧
    levelDisplay (LEVELS.getD 2 noLevel) = "2.2 (2)" ∧
    "2.2 (2)" ≠ "Reserved" :=
  ⟨rfl, rfl, by decide⟩

/-- Claim C6 (amended): index 31 renders "Maximum parameters", indices
24..30 render "Reserved", and every index below 24 — valid or reserved —
renders "major.minor (index)" with major = 2 + (index >> 2) and
minor = index AND 3. -/
theorem claim_C6 :
    ∀ i : Fin 32, levelDisplay (LEVELS.getD i.val noLevel) =
      if i.val = 31 then "Maximum parameters"
      else if 24 ≤ i.val then "Reserved"
      else toString (2 + (i.val >>> 2)) ++ "." ++ toString (i.val &&& 3) ++
        " (" ++ toString i.val ++ ")" := by
  decide

/-- Counterexample to claim C8 as stated: for a single-temporal-unit
stream whose only unit has timestamp 0 (the typical case), the clamped
end-of-stream delta is 0, so the display-rate division divides by a zero
duration after all. -/
theorem claim_C8_cex : finalDeltaTime 0 0 30 = 0 := by
  norm_num [finalDeltaTime]

/-- Claim C8 (amended): the clamped end-of-stream delta is nonzero for
every stream whose final temporal unit has a positive timestamp (with a
positive time scale) — in particular for single-unit streams starting at a
positive timestamp. -/
theorem claim_C8 (cur last : Nat) (ts : ℚ) (hts : 0 < ts) (hcur : 0 < cur) :
    0 < finalDeltaTime cur last ts := by
  have hc : (0 : ℚ) < (cur : ℚ) := by exact_mod_cast hcur
  have h1 : 0 < 1 / ts * (cur : ℚ) := mul_pos (by positivity) hc
  exact lt_of_lt_of_le h1 (le_max_right _ _)

/-- Witness for C8 at a concrete positive timestamp. -/
theorem claim_C8_witness :
    (0 : ℚ) < 30 ∧ (0 : Nat) < 2 ∧ 0 < finalDeltaTime 2 0 30 :=
  ⟨by norm_num, by norm_num, claim_C8 2 0 30 (by norm_num) (by norm_num)⟩

/-- Claim C9: for every tier and display rate the compression-ratio table
keeps reserved entries at exactly 0 (the 0.8 floor applies only to valid
levels), and consequently the `min_cr_level_idx` search can settle on a
reserved index (here index 2, for a Main-tier table at display rate
4423680 and observed minimum ratio 1/2). -/
theorem claim_C9 :
    (∀ (tier : Tier) (dr : ℚ) (i : Nat), i < 32 →
      (LEVELS.getD i noLevel).limits = none →
      (calculate_min_pic_compress_ratio tier dr).getD i 1 = 0) ∧
    (minCrSearchAux (1/2) 0 0 (calculate_min_pic_compress_ratio Tier.Main 4423680) = 2 ∧
      (LEVELS.getD 2 noLevel).is_valid = false) := by
  constructor
  · intro tier dr i hi hnone
    have hib : i < LEVELS.length := by rw [levels_length]; exact hi
    rw [levels_getD_eq_get hib] at hnone
    rw [List.getD_eq_getElem?_getD, calculate_min_pic_compress_ratio, List.getElem?_map,
      List.getElem?_eq_getElem hib]
    rw [List.get_eq_getElem] at hnone
    simp [hnone]
  · exact ⟨by norm_num [calculate_min_pic_compress_ratio, LEVELS, minCrSearchAux], rfl⟩

/-- Witness for C9 at a concrete tier, display rate and reserved index. -/
theorem claim_C9_witness :
    ((2 : Nat) < 32 ∧ (LEVELS.getD 2 noLevel).limits = none) ∧
    (calculate_min_pic_compress_ratio Tier.High 7).getD 2 1 = 0 :=
  ⟨⟨by decide, rfl⟩, claim_C9.1 Tier.High 7 2 (by decide) rfl⟩

/-- Claim C10: a temporal-delimiter event whose timestamp equals the
current temporal unit's start timestamp is skipped as a duplicate, leaving
the whole accumulation state — running maxima, sliding windows and
per-unit counters — unchanged. -/
theorem claim_C10 (timeScale : ℚ) (seqTier : Option Tier) (pts : Nat) (st : AccState)
    (h : pts = st.curTuTime) : tdStep timeScale seqTier pts st = st := by
  subst h
  simp [tdStep]

/-- Witness for C10 at a concrete state with unit start 7. -/
theorem claim_C10_witness :
    7 = stW.curTuTime ∧ tdStep 30 none 7 stW = stW :=
  ⟨rfl, claim_C10 30 none 7 stW rfl⟩

/- ------------------------------------------------------------------ -/
/- Patcher lemmas (claims C4 and C7).                                  -/
/- ------------------------------------------------------------------ -/

theorem overwrite_empty (file : List Nat) : overwriteBytes file 0 [] = file := by
  cases file <;> rfl

theorem overwrite1_overwrite1 (file : List Nat) (y v : Nat) :
    overwriteBytes (overwriteBytes file 0 [y]) 0 [v] = overwriteBytes file 0 [v] := by
  cases file with
  | nil => rfl
  | cons c r => simp [overwriteBytes, overwrite_empty]

theorem overwrite1_refl (file : List Nat) (h : 0 < file.length) :
    overwriteBytes file 0 [file.getD 0 0] = file := by
  cases file with
  | nil => simp at h
  | cons c r => simp [overwriteBytes, overwrite_empty]

theorem overwrite2_getD_fst :
    ∀ (file : List Nat) (s x y : Nat), s < file.length →
      (overwriteBytes file s [x, y]).getD s 0 = x := by
  intro file
  induction file with
  | nil => intro s x y h; simp at h
  | cons b rest ih =>
    intro s x y h
    match s with
    | 0 => simp [overwriteBytes]
    | s + 1 =>
      show (b :: overwriteBytes rest s [x, y]).getD (s + 1) 0 = x
      rw [List.getD_cons_succ]
      exact ih s x y (Nat.lt_of_succ_lt_succ h)

theorem overwrite2_getD_snd :
    ∀ (file : List Nat) (s x y : Nat), s + 1 < file.length →
      (overwriteBytes file s [x, y]).getD (s + 1) 0 = y := by
  intro file
  induction file with
  | nil => intro s x y h; simp at h
  | cons b rest ih =>
    intro s x y h
    match s with
    | 0 =>
      match rest, h with
      | c :: r, _ => simp [overwriteBytes]
    | s + 1 =>
      show (b :: overwriteBytes rest s [x, y]).getD (s + 2) 0 = y
      rw [List.getD_cons_succ]
      exact ih s x y (Nat.lt_of_succ_lt_succ h)

theorem overwrite2_overwrite2 :
    ∀ (file : List Nat) (s x y u v : Nat),
      overwriteBytes (overwriteBytes file s [x, y]) s [u, v] =
        overwriteBytes file s [u, v] := by
  intro file
  induction file with
  | nil => intro s x y u v; rfl
  | cons b rest ih =>
    intro s x y u v
    match s with
    | 0 =>
      show overwriteBytes (x :: overwriteBytes rest 0 [y]) 0 [u, v] =
        u :: overwriteBytes rest 0 [v]
      show u :: overwriteBytes (overwriteBytes rest 0 [y]) 0 [v] =
        u :: overwriteBytes rest 0 [v]
      rw [overwrite1_overwrite1]
    | s + 1 =>
      show b :: overwriteBytes (overwriteBytes rest s [x, y]) s [u, v] =
        b :: overwriteBytes rest s [u, v]
      rw [ih]

theorem overwrite2_refl :
    ∀ (file : List Nat) (s : Nat), s + 1 < file.length →
      overwriteBytes file s [file.getD s 0, file.getD (s + 1) 0] = file := by
  intro file
  induction file with
  | nil => intro s h; simp at h
  | cons b rest ih =>
    intro s h
    match s with
    | 0 =>
      show overwriteBytes (b :: rest) 0 [(b :: rest).getD 0 0, (b :: rest).getD 1 0] = b :: rest
      rw [List.getD_cons_zero, List.getD_cons_succ]
      show b :: overwriteBytes rest 0 [rest.getD 0 0] = b :: rest
      rw [overwrite1_refl rest (by simpa using Nat.lt_of_succ_lt_succ h)]
    | s + 1 =>
      show b :: overwriteBytes rest s [rest.getD s 0, rest.getD (s + 1) 0] = b :: rest
      rw [ih s (Nat.lt_of_succ_lt_succ h)]

set_option maxRecDepth 2048 in
/-- The first merged byte of a no-transition patch at intra-byte offset 0:
the new level occupies the top five bits, the low three bits survive. -/
theorem out0_eq (b0 Bv : Nat) (hb : b0 < 256) (hBv : Bv < 32) :
    (Bv <<< 11 % 65536) >>> 8 |||
      (b0 &&& 255 - (31 <<< 11 % 65536) >>> 8 ||| (Bv <<< 11 % 65536) >>> 8) &&&
        ((1 <<< 11 % 65536) >>> 1 >>> 8 ||| (65535 <<< 3 >>> 8 >>> 1 % 65536) >>> 8) =
      Bv * 8 + b0 % 8 :=
  (by decide : ∀ (x : Fin 256) (y : Fin 32),
    (y.val <<< 11 % 65536) >>> 8 |||
      (x.val &&& 255 - (31 <<< 11 % 65536) >>> 8 ||| (y.val <<< 11 % 65536) >>> 8) &&&
        ((1 <<< 11 % 65536) >>> 1 >>> 8 ||| (65535 <<< 3 >>> 8 >>> 1 % 65536) >>> 8) =
      y.val * 8 + x.val % 8) ⟨b0, hb⟩ ⟨Bv, hBv⟩

set_option maxRecDepth 2048 in
/-- The second merged byte of a no-transition patch at intra-byte offset 0
is unchanged. -/
theorem out1_eq (b1 Bv : Nat) (hb : b1 < 256) (hBv : Bv < 32) :
    Bv <<< 11 % 256 |||
      (b1 &&& 255 - 31 <<< 11 % 256 ||| Bv <<< 11 % 256) &&&
        ((1 <<< 11 % 65536) >>> 1 % 256 ||| 65535 <<< 3 >>> 8 >>> 1 % 256) = b1 :=
  (by decide : ∀ (x : Fin 256) (y : Fin 32),
    y.val <<< 11 % 256 |||
      (x.val &&& 255 - 31 <<< 11 % 256 ||| y.val <<< 11 % 256) &&&
        ((1 <<< 11 % 65536) >>> 1 % 256 ||| 65535 <<< 3 >>> 8 >>> 1 % 256) = x.val)
    ⟨b1, hb⟩ ⟨Bv, hBv⟩

/-- The consistency-assertion decode at intra-byte offset 0 recovers the
top five bits of the first byte. -/
theorem decode_noOff (b0 b1 : Nat) (h0 : b0 < 256) (h1 : b1 < 256) :
    (b0 * 256 + b1) >>> 11 % 256 = b0 >>> 3 := by
  rw [Nat.shiftRight_eq_div_pow, Nat.shiftRight_eq_div_pow]
  norm_num
  omega

theorem shiftRight3_of_div (b A : Nat) (h : b >>> 3 = A) : b / 8 = A := by
  rw [Nat.shiftRight_eq_div_pow] at h
  norm_num at h
  exact h

/-- A patch between two levels on the same side of the index-7 boundary at
level bit offset 24 (no tier transition) merges the new level into the top
five bits of the byte at index 3 and leaves every other byte unchanged. -/
theorem patch_noTrans (A B seqSz : Nat) (file : List Nat) (hA : A < 32) (hB : B < 32)
    (hside : (A ≤ 7 ∧ B ≤ 7) ∨ (7 < A ∧ 7 < B))
    (hb0 : file.getD 3 0 < 256) (hb1 : file.getD 4 0 < 256)
    (hassert : file.getD 3 0 >>> 3 = A) :
    patchFile 24 A B seqSz file =
      .ok (overwriteBytes file 3 [B * 8 + file.getD 3 0 % 8, file.getD 4 0]) := by
  simp only [List.getD_eq_getElem?_getD] at hb0 hb1 hassert ⊢
  simp only [patchFile, toBeBytes16]
  norm_num
  generalize hx : file[3]?.getD 0 = b0 at *
  generalize hy : file[4]?.getD 0 = b1 at *
  rw [decode_noOff b0 b1 hb0 hb1, if_pos hassert]
  rw [if_neg (by omega), if_neg (by omega)]
  rw [out0_eq b0 B hb0 hB, out1_eq b1 B hb1 hB]

/-- Counterexample to claim C4 as stated: on a reduced-still-picture
stream (level bit offset 5, record bytes `0b00011000 0b00010000 ...`,
declared level 0) the round trip 0 → 1 → 0 does not reproduce the record:
the very first patch aborts in the consistency assertion, whose decode
shifts the wrong way at intra-byte offset 5. -/
theorem claim_C4_cex :
    (patchFile 5 0 1 10 [24, 16, 0, 0, 0, 0, 0, 0, 0, 0]).bind (patchFile 5 1 0 10) ≠
      .ok [24, 16, 0, 0, 0, 0, 0, 0, 0, 0] := by
  intro h
  rw [show (patchFile 5 0 1 10 [24, 16, 0, 0, 0, 0, 0, 0, 0, 0]).bind (patchFile 5 1 0 10) =
      Except.error PatchError.levelMismatch from rfl] at h
  exact Except.noConfusion h

/-- Claim C4 (amended): for a stream that does not use the reduced
still-picture header (level bit offset 24, hence byte-aligned intra-byte
offset 0), patching the sequence-parameters record from level A to level B
and back, with A and B on the same side of the index-7 boundary,
reproduces the original bytes exactly. -/
theorem claim_C4 (A B seqSz : Nat) (file : List Nat) (hA : A < 32) (hB : B < 32)
    (hside : (A ≤ 7 ∧ B ≤ 7) ∨ (7 < A ∧ 7 < B)) (hlen : 5 ≤ file.length)
    (hb0 : file.getD 3 0 < 256) (hb1 : file.getD 4 0 < 256)
    (hassert : file.getD 3 0 >>> 3 = A) :
    (patchFile 24 A B seqSz file).bind (patchFile 24 B A seqSz) = .ok file := by
  rw [patch_noTrans A B seqSz file hA hB hside hb0 hb1 hassert]
  show patchFile 24 B A seqSz
      (overwriteBytes file 3 [B * 8 + file.getD 3 0 % 8, file.getD 4 0]) = .ok file
  have h4 : 3 + 1 < file.length := by omega
  have h3 : (3 : Nat) < file.length := by omega
  have g3 : (overwriteBytes file 3 [B * 8 + file.getD 3 0 % 8, file.getD 4 0]).getD 3 0 =
      B * 8 + file.getD 3 0 % 8 := overwrite2_getD_fst file 3 _ _ h3
  have g4 : (overwriteBytes file 3 [B * 8 + file.getD 3 0 % 8, file.getD 4 0]).getD 4 0 =
      file.getD 4 0 := overwrite2_getD_snd file 3 _ _ h4
  have hdiv : file.getD 3 0 / 8 = A := shiftRight3_of_div _ _ hassert
  rw [patch_noTrans B A seqSz _ hB hA (by omega) (by rw [g3]; omega) (by rw [g4]; omega)
    (by rw [g3, Nat.shiftRight_eq_div_pow]; norm_num; omega)]
  rw [g3, g4]
  have e0 : A * 8 + (B * 8 + file.getD 3 0 % 8) % 8 = file.getD 3 0 := by omega
  rw [e0, overwrite2_overwrite2, overwrite2_refl file 3 h4]

/-- Witness for C4 at a concrete record and level pair 8 → 9 → 8. -/
theorem claim_C4_witness :
    ((8 : Nat) < 32 ∧ (9 : Nat) < 32 ∧ (7 < 8 ∧ 7 < 9) ∧
     5 ≤ ([1, 2, 3, 69, 123, 7] : List Nat).length ∧
     ([1, 2, 3, 69, 123, 7] : List Nat).getD 3 0 < 256 ∧
     ([1, 2, 3, 69, 123, 7] : List Nat).getD 4 0 < 256 ∧
     ([1, 2, 3, 69, 123, 7] : List Nat).getD 3 0 >>> 3 = 8) ∧
    (patchFile 24 8 9 6 [1, 2, 3, 69, 123, 7]).bind (patchFile 24 9 8 6) =
      .ok [1, 2, 3, 69, 123, 7] :=
  ⟨⟨by decide, by decide, by decide, by decide, by decide, by decide, by decide⟩,
   claim_C4 8 9 6 [1, 2, 3, 69, 123, 7] (by decide) (by decide) (Or.inr (by decide))
     (by decide) (by decide) (by decide) (by decide)⟩

set_option maxRecDepth 2048 in
/-- At intra-byte offset 0, the tier bit the removal branch tests on the
level-merged first byte is exactly the tier bit of the original byte. -/
theorem tier_check_fst (b0 Bv : Nat) (hb : b0 < 256) (hBv : Bv < 32) :
    (b0 &&& 255 - (31 <<< 11 % 65536) >>> 8 ||| (Bv <<< 11 % 65536) >>> 8) &&&
      (1 <<< 11 % 65536) >>> 1 >>> 8 = b0 &&& 4 :=
  (by decide : ∀ (x : Fin 256) (y : Fin 32),
    (x.val &&& 255 - (31 <<< 11 % 65536) >>> 8 ||| (y.val <<< 11 % 65536) >>> 8) &&&
      (1 <<< 11 % 65536) >>> 1 >>> 8 = x.val &&& 4) ⟨b0, hb⟩ ⟨Bv, hBv⟩

set_option maxRecDepth 2048 in
/-- At intra-byte offset 0, the tier-bit mask covers no bit of the second
byte, so the second half of the removal-branch test is always zero. -/
theorem tier_check_snd (b1 Bv : Nat) (hb : b1 < 256) (hBv : Bv < 32) :
    (b1 &&& 255 - 31 <<< 11 % 256 ||| Bv <<< 11 % 256) &&&
      (1 <<< 11 % 65536) >>> 1 % 256 = 0 :=
  (by decide : ∀ (x : Fin 256) (y : Fin 32),
    (x.val &&& 255 - 31 <<< 11 % 256 ||| y.val <<< 11 % 256) &&&
      (1 <<< 11 % 65536) >>> 1 % 256 = 0) ⟨b1, hb⟩ ⟨Bv, hBv⟩

/-- Claim C7: when patching from a level above 7 to one at most 7 (tier
removal) and the consistency assertion passes, the patch aborts with the
High-tier fatal error exactly when the tier bit read from the stream is
nonzero; when it is zero, the removal proceeds and the bytes of the record
after the level/tier bytes are each shifted one bit left (`shiftLeftTail`).
For a reduced-still-picture stream (offset 5) the assertion can never pass
for a level above 7, so the statement is vacuous there. -/
theorem claim_C7 (lvOff A B seqSz : Nat) (file : List Nat)
    (hoff : lvOff = 5 ∨ lvOff = 24) (hA : A < 32) (hold : 7 < A) (hnew : B ≤ 7)
    (hb0 : file.getD (lvOff / 8) 0 < 256) (hb1 : file.getD (lvOff / 8 + 1) 0 < 256)
    (hassert : ((file.getD (lvOff / 8) 0 * 256 + file.getD (lvOff / 8 + 1) 0) >>> 11
        <<< (lvOff % 8)) % 256 = A) :
    (patchFile lvOff A B seqSz file = .error .highTierRemoval ↔
      (file.getD (lvOff / 8) 0 &&& (toBeBytes16 (((1 <<< 11 >>> (lvOff % 8)) % 65536) >>> 1)).1 ≠ 0 ∨
       file.getD (lvOff / 8 + 1) 0 &&& (toBeBytes16 (((1 <<< 11 >>> (lvOff % 8)) % 65536) >>> 1)).2 ≠ 0)) ∧
    ((file.getD (lvOff / 8) 0 &&& (toBeBytes16 (((1 <<< 11 >>> (lvOff % 8)) % 65536) >>> 1)).1 = 0 ∧
      file.getD (lvOff / 8 + 1) 0 &&& (toBeBytes16 (((1 <<< 11 >>> (lvOff % 8)) % 65536) >>> 1)).2 = 0) →
      ∃ w0 w1, patchFile lvOff A B seqSz file =
        .ok (overwriteBytes file (lvOff / 8) ([w0, w1] ++ shiftLeftTail file (lvOff / 8 + 2) seqSz))) := by
  rcases hoff with hoff | hoff
  · subst hoff
    exfalso
    rw [Nat.shiftLeft_eq] at hassert
    norm_num at hassert
    omega
  · subst hoff
    simp only [List.getD_eq_getElem?_getD] at hb0 hb1 hassert ⊢
    simp only [patchFile, toBeBytes16]
    norm_num
    generalize hx : file[3]?.getD 0 = b0 at *
    generalize hy : file[4]?.getD 0 = b1 at *
    have hB32 : B < 32 := by omega
    have hc1 : (b0 * 256 + b1) >>> 11 % 256 = A := by
      rw [show (24 : Nat) % 8 = 0 from rfl, Nat.shiftLeft_zero] at hassert
      exact hassert
    simp only [hc1, hold, hnew, and_self, and_true, true_and, if_true, ite_true
      , eq_self_iff_true]
    simp only [tier_check_fst b0 B hb0 hB32, tier_check_snd b1 B hb1 hB32]
    simp only [show (1 <<< 11 % 65536) >>> 1 >>> 8 = 4 from rfl,
      show (1 <<< 11 % 65536) >>> 1 % 256 = 0 from rfl, Nat.and_zero]
    by_cases hbit : b0 &&& 4 = 0
    · simp only [hbit, Nat.lt_irrefl, or_false, if_false, ite_false, or_self,
        not_true, not_false_iff]
      constructor
      · constructor
        · intro h; exact absurd h (by simp)
        · intro h; exact absurd h (by simp)
      · intro h1 h2
        exact ⟨_, _, rfl⟩
    · have hpos : 0 < b0 &&& 4 := Nat.pos_of_ne_zero hbit
      simp only [hpos, true_or, if_true, ite_true]
      refine ⟨?_, ?_⟩
      · simp [hbit]
      · intro h1 h2
        exact absurd h1 hbit

/-- Witness for C7 at a concrete record with level 8, Main tier. -/
theorem claim_C7_witness :
    ((24 : Nat) = 5 ∨ (24 : Nat) = 24) ∧
    ((patchFile 24 8 1 7 [9, 9, 9, 64, 0, 204, 129, 77] = .error .highTierRemoval ↔
        (([9, 9, 9, 64, 0, 204, 129, 77] : List Nat).getD 3 0 &&& 4 ≠ 0 ∨
         ([9, 9, 9, 64, 0, 204, 129, 77] : List Nat).getD 4 0 &&& 0 ≠ 0)) ∧
     ((([9, 9, 9, 64, 0, 204, 129, 77] : List Nat).getD 3 0 &&& 4 = 0 ∧
       ([9, 9, 9, 64, 0, 204, 129, 77] : List Nat).getD 4 0 &&& 0 = 0) →
       ∃ w0 w1, patchFile 24 8 1 7 [9, 9, 9, 64, 0, 204, 129, 77] =
         .ok (overwriteBytes [9, 9, 9, 64, 0, 204, 129, 77] 3
           ([w0, w1] ++ shiftLeftTail [9, 9, 9, 64, 0, 204, 129, 77] 5 7)))) :=
  ⟨Or.inr rfl, claim_C7 24 8 1 7 _ (Or.inr rfl) (by decide) (by decide) (by decide)
    (by decide) (by decide) (by decide)⟩

end Elevator
